import Mathlib

/-!
Shallow embedding of the seldonite record-acquisition pipeline
(src/seldonite/commoncrawl/sparkcc.py, src/seldonite/spark/fetch_news.py,
src/seldonite/commoncrawl/cc_index_fetch_news.py,
src/seldonite/helpers/utils.py), together with theorems settling the
frozen claims about it.

Conventions of the embedding:
* Spark accumulators (`sc.accumulator(0)` with only `.add(1)` writes)
  are modelled as a `Counters` record of naturals; every processing
  function returns the *delta* it contributes (merged by summation,
  exactly the accumulator semantics).
* External collaborators that live outside the repository
  (`newspaper`-based `utils.html_to_article`, `heuristics.og_type`,
  `filter.contains_keywords`) are oracle parameters gathered in `JobCtx`;
  a Python exception raised by the extraction collaborator is an
  `Except.error` value of the oracle.
* Python truthiness is modelled where it matters: `None` is falsy,
  any 2-tuple (such as `(False, None)`) is truthy, a list/string/int is
  truthy iff non-empty/non-zero.
* Dates handled by `datetime.date` arithmetic are proleptic-Gregorian
  ordinals (`date.toordinal`, ordinal 1 = 0001-01-01), modelled as `Nat`.
-/

namespace Seldonite

/-- Per-partition metric accumulators of `CCSparkJob` /
`CCIndexFetchNewsJob` (sparkcc.py `init_accumulators`,
cc_index_fetch_news.py `init_accumulators`).  A value of this type is a
*delta*: the increments contributed by one piece of processing. -/
structure Counters where
  warc_input_processed : Nat := 0
  warc_input_failed : Nat := 0
  records_processed : Nat := 0
  records_parsing_failed : Nat := 0
  records_non_html : Nat := 0
  deriving Repr, DecidableEq

/-- Field-wise merge of counter deltas (accumulator summation). -/
def Counters.add (a b : Counters) : Counters :=
  { warc_input_processed := a.warc_input_processed + b.warc_input_processed
    warc_input_failed := a.warc_input_failed + b.warc_input_failed
    records_processed := a.records_processed + b.records_processed
    records_parsing_failed := a.records_parsing_failed + b.records_parsing_failed
    records_non_html := a.records_non_html + b.records_non_html }

instance : Add Counters := ⟨Counters.add⟩

/-- The all-zero delta (a freshly initialised accumulator set). -/
def Counters.zero : Counters := {}

/-- One WARC record as the jobs see it (warcio record object):
`rec_type`, the WARC header block `rec_headers`, the HTTP header block
`http_headers`, and the payload bytes exposed by
`record.content_stream().read()`. -/
structure Record where
  rec_type : String
  rec_headers : List (String × String)
  http_headers : List (String × String)
  payload : String
  deriving Repr, DecidableEq

/-- ASCII lower-casing of one character (header names are ASCII). -/
def lowerChar (c : Char) : Char :=
  if 65 ≤ c.toNat ∧ c.toNat ≤ 90 then Char.ofNat (c.toNat + 32) else c

/-- ASCII lower-casing of a string, as a character list. -/
def lowerStr (s : String) : List Char := s.data.map lowerChar

/-- Case-insensitive header lookup: warcio's `StatusAndHeaders.get_header`
(and its `in` test) match header names case-insensitively and return the
first match. -/
def getHeader (headers : List (String × String)) (name : String) : Option String :=
  (headers.find? (fun p => lowerStr p.1 = lowerStr name)).map Prod.snd

/-- `needle` occurs as a contiguous substring of `hay`
(Python's `in` on strings). -/
def containsSub (needle hay : List Char) : Bool :=
  if needle.isPrefixOf hay then true
  else
    match hay with
    | [] => false
    | _ :: t => containsSub needle t

/-- The two HTML media types of `CCSparkJob.is_html` (sparkcc.py). -/
def html_types : List String := ["text/html", "application/xhtml+xml"]

/-- `CCSparkJob.is_html` (sparkcc.py): true if the
`WARC-Identified-Payload-Type` header is present with a value equal to
one of `html_types`, else true if the HTTP `content-type` header is a
non-empty string containing one of `html_types` as a substring. -/
def is_html (r : Record) : Bool :=
  match getHeader r.rec_headers "WARC-Identified-Payload-Type" with
  | some v =>
    if html_types.contains v then true
    else is_html_content_type r
  | none => is_html_content_type r
where
  /-- The `content-type` fallback branch of `is_html`; Python's
  `if content_type:` treats an empty string as falsy. -/
  is_html_content_type (r : Record) : Bool :=
    match getHeader r.http_headers "content-type" with
    | some ct =>
      if ct = "" then false
      else html_types.any (fun t => containsSub t.data ct.data)
    | none => false

/-- Result of the external article-extraction collaborator
(`utils.html_to_article`, built on `newspaper.Article`): title, body
text, and the publish date as an ordinal. -/
structure Article where
  title : String
  text : String
  publish_date : Int
  deriving Repr, DecidableEq

/-- The accepted-article dictionary emitted by
`FetchNewsJob.process_record` (fetch_news.py line 42). -/
structure OutArticle where
  title : String
  text : String
  url : String
  publish_date : Int
  deriving Repr, DecidableEq

/-- Job configuration plus the external collaborators of
`FetchNewsJob.process_record`: the extraction oracle
(`utils.html_to_article`; `Except.error` models a raised exception), the
structural heuristic (`heuristics.og_type`) and the keyword filter
(`filter.contains_keywords`), together with the configured keyword list
and date range. -/
structure JobCtx where
  extractArt : String → String → Except String Article
  og_type : Article → Bool
  contains_keywords : Article → List String → Bool
  keywords : List String
  start_date : Int
  end_date : Int

/-- What a Python `process_record` call can return in fetch_news.py:
`skip` is a bare `return` (the value `None`), `pair ok art` is the
2-tuple `(ok, art)`.  Note `(False, None)` is `pair false none`. -/
inductive ProcResult where
  | skip : ProcResult
  | pair (ok : Bool) (art : Option OutArticle) : ProcResult
  deriving Repr, DecidableEq

/-- Python truthiness of a `process_record` return value as tested by
`if obj:` in `CCSparkJob.iterate_records`: `None` is falsy, every
2-tuple — including `(False, None)` — is truthy. -/
def ProcResult.truthy : ProcResult → Bool
  | .skip => false
  | .pair _ _ => true

/-- `FetchNewsJob.process_record` (src/seldonite/spark/fetch_news.py
lines 16-42), returning the result value together with the accumulator
increments it performs. -/
def process_record (ctx : JobCtx) (url : String) (r : Record) :
    ProcResult × Counters :=
  if r.rec_type ≠ "response" then
    -- skip over WARC request or metadata records
    (.skip, Counters.zero)
  else if ¬ is_html r then
    (.skip, { Counters.zero with records_non_html := 1 })
  else
    match ctx.extractArt url r.payload with
    | .error _ =>
      -- `except Exception`: log, count, return (False, None)
      (.pair false none, { Counters.zero with records_parsing_failed := 1 })
    | .ok article =>
      if ¬ ctx.og_type article then
        (.pair false none, Counters.zero)
      else if article.publish_date < ctx.start_date ∨
          article.publish_date > ctx.end_date then
        (.pair false none, Counters.zero)
      else if ctx.keywords ≠ [] ∧
          ¬ ctx.contains_keywords article ctx.keywords then
        (.pair false none, Counters.zero)
      else
        (.pair true (some ⟨article.title, article.text, url,
          article.publish_date⟩), Counters.zero)

/-- Modelled from the spec: `FetchNewsJob._process_record` of
`seldonite/commoncrawl/fetch_news.py`, a module absent from the sources
(only its caller `CCIndexFetchNewsJob.process_record` is present).  Per
§4.5 steps 3-7 it is the post-classification pipeline — extraction with
exception capture, structural heuristic, date-range filter, keyword
filter, acceptance — mirroring lines 23-42 of
src/seldonite/spark/fetch_news.py. -/
def underscore_process_record (ctx : JobCtx) (url : String) (page : String) :
    ProcResult × Counters :=
  match ctx.extractArt url page with
  | .error _ =>
    (.pair false none, { Counters.zero with records_parsing_failed := 1 })
  | .ok article =>
    if ¬ ctx.og_type article then
      (.pair false none, Counters.zero)
    else if article.publish_date < ctx.start_date ∨
        article.publish_date > ctx.end_date then
      (.pair false none, Counters.zero)
    else if ctx.keywords ≠ [] ∧
        ¬ ctx.contains_keywords article ctx.keywords then
      (.pair false none, Counters.zero)
    else
      (.pair true (some ⟨article.title, article.text, url,
        article.publish_date⟩), Counters.zero)

/-- `CCIndexFetchNewsJob.process_record`
(src/seldonite/commoncrawl/cc_index_fetch_news.py lines 42-51): skip
non-response records, skip (return `None`, **without touching any
counter**) records that are not HTML, otherwise read the target URI
header and delegate to `_process_record`. -/
def cc_index_process_record (ctx : JobCtx) (r : Record) :
    ProcResult × Counters :=
  if r.rec_type ≠ "response" then
    -- skip over WARC request or metadata records
    (.skip, Counters.zero)
  else if ¬ is_html r then
    (.skip, Counters.zero)
  else
    let url := (getHeader r.rec_headers "WARC-Target-URI").getD ""
    underscore_process_record ctx url r.payload

/-- Has the per-partition soft cap been reached?  `none` models a falsy
`self.limit` (no cap configured). -/
def capReached : Option Nat → Nat → Bool
  | none, _ => false
  | some k, s => decide (s ≥ k)

/-- The body of `CCSparkJob.iterate_records` (sparkcc.py lines 165-186)
once the cap `num_to_successfully_process` has been computed: process
each record via `proc` (the subclass `process_record`), yield every
truthy result, bump `records_processed` for every record, and break as
soon as `records_successfully_processed` reaches the cap.  `succ` is the
running `records_successfully_processed` value. -/
def iterate_records_from (cap : Option Nat)
    (proc : Record → ProcResult × Counters) :
    List Record → Nat → List ProcResult × Counters
  | [], _ => ([], Counters.zero)
  | r :: rest, succ =>
    let step := proc r
    let δ1 := step.2 + { Counters.zero with records_processed := 1 }
    if step.1.truthy then
      if capReached cap (succ + 1) then ([step.1], δ1)
      else
        let tail := iterate_records_from cap proc rest (succ + 1)
        (step.1 :: tail.1, δ1 + tail.2)
    else
      if capReached cap succ then ([], δ1)
      else
        let tail := iterate_records_from cap proc rest succ
        (tail.1, δ1 + tail.2)

/-- `CCSparkJob.iterate_records`: `num_to_successfully_process =
math.ceil(self.limit / self.num_input_partitions) if self.limit else
None` (`limit = 0` models a falsy `self.limit`; the ceiling of the exact
rational division is `(limit + parts - 1) / parts` in `Nat`). -/
def iterate_records (limit num_input_partitions : Nat)
    (proc : Record → ProcResult × Counters) (records : List Record) :
    List ProcResult × Counters :=
  iterate_records_from
    (if limit = 0 then none
     else some ((limit + num_input_partitions - 1) / num_input_partitions))
    proc records 0

/-- One row of the index-query result consumed by
`CCIndexWarcSparkJob.fetch_process_warc_records`. -/
structure WorkRow where
  url : String
  warc_filename : String
  warc_record_offset : Nat
  warc_record_length : Nat
  content_charset : Option String
  deriving Repr, DecidableEq

/-- Outcome of the ranged `s3client.get_object` fetch plus the
`ArchiveIterator` decode of one `WorkRow`: a `botocore ClientError`, or
the stream's records together with whether iteration ends in an
`ArchiveLoadFailed` (records decoded before the corruption are still
yielded). -/
inductive FetchOutcome where
  | clientError : FetchOutcome
  | content (records : List Record) (corrupt : Bool) : FetchOutcome
  deriving Repr, DecidableEq

/-- `record.rec_headers['WARC-Identified-Content-Charset'] =
content_charset` (sparkcc.py line 346).  When the row carries no
charset, Python stores a `None` value that no later reader consults; the
embedding drops that null assignment. -/
def set_charset (cs : Option String) (r : Record) : Record :=
  match cs with
  | some s => { r with
      rec_headers := r.rec_headers ++ [("WARC-Identified-Content-Charset", s)] }
  | none => r

/-- The inner `for record in ArchiveIterator(...)` loop of
`fetch_process_warc_records` (sparkcc.py lines 343-351): process each
record, yield every truthy result, bump `records_processed` for every
record.  There is no admission cap in this loop. -/
def process_stream (proc : Record → ProcResult × Counters) :
    List Record → List ProcResult × Counters
  | [] => ([], Counters.zero)
  | r :: rs =>
    let step := proc r
    let δ1 := step.2 + { Counters.zero with records_processed := 1 }
    let tail := process_stream proc rs
    ((if step.1.truthy then [step.1] else []) ++ tail.1, δ1 + tail.2)

/-- `CCIndexWarcSparkJob.fetch_process_warc_records` (sparkcc.py lines
311-357): for each row issue the ranged fetch; on `ClientError`
increment `warc_input_failed` and `continue`; otherwise iterate the
records of the fetched stream, and on a trailing `ArchiveLoadFailed`
increment `warc_input_failed` and move to the next row. -/
def fetch_process_warc_records (fetch : WorkRow → FetchOutcome)
    (proc : Record → ProcResult × Counters) :
    List WorkRow → List ProcResult × Counters
  | [] => ([], Counters.zero)
  | row :: rest =>
    match fetch row with
    | .clientError =>
      let tail := fetch_process_warc_records fetch proc rest
      (tail.1, { Counters.zero with warc_input_failed := 1 } + tail.2)
    | .content records corrupt =>
      let this := process_stream
        (fun r => proc (set_charset row.content_charset r)) records
      let δ1 := if corrupt then
          this.2 + { Counters.zero with warc_input_failed := 1 }
        else this.2
      let tail := fetch_process_warc_records fetch proc rest
      (this.1 ++ tail.1, δ1 + tail.2)

/-- `', '.join(f"'{x}'" for x in xs)` — the quoted, comma-separated list
used for the `crawl IN (...)` and `url_host_registered_domain IN (...)`
clauses of `construct_query`. -/
def quoteList (xs : List String) : String :=
  String.intercalate ", " (xs.map (fun x => "'" ++ x ++ "'"))

/-- The fixed SELECT/WHERE head of `construct_query`
(src/seldonite/helpers/utils.py line 125). -/
def select_head : String :=
  "SELECT url, warc_filename, warc_record_offset, warc_record_length, content_charset FROM ccindex WHERE subset = 'warc'"

/-- `utils.construct_query` (src/seldonite/helpers/utils.py lines
123-157).  Python falsy defaults are modelled as `[]` for `crawls` and
`url_black_list`, `""` for a falsy `lang`, `0` for a falsy `limit`; the
`raise ValueError` becomes `Except.error` carrying the message. -/
def construct_query (sites : List String) (limit : Nat)
    (crawls : List String) (lang : String) (url_black_list : List String) :
    Except String String :=
  let query := select_head
  let query :=
    match crawls with
    | [] => query
    | [c] => query ++ " AND crawl = '" ++ c ++ "'"
    | cs => query ++ " AND crawl IN (" ++ quoteList cs ++ ")"
  -- site restrict (`"." in domain` is membership of the dot character)
  if ¬ sites.all (fun s => s.data.contains '.') then
    .error "Sites should be the full registered domain, i.e. cbc.ca instead of just cbc"
  else
    let query :=
      if sites ≠ [] then
        query ++ " AND url_host_registered_domain IN (" ++ quoteList sites ++ ")"
      else query
    -- Language filter
    let query :=
      if lang ≠ "" then
        query ++ " AND (content_languages IS NULL OR (content_languages IS NOT NULL AND content_languages = '" ++ lang ++ "'))"
      else query
    let query :=
      if url_black_list ≠ [] then
        -- replace wildcards with %
        query ++ " AND NOT (" ++
          String.intercalate " OR "
            (url_black_list.map
              (fun u => "url_path LIKE '" ++ u.replace "*" "%" ++ "'")) ++ ")"
      else query
    -- set limit to sites if needed
    let query := if limit ≠ 0 then query ++ " LIMIT " ++ toString limit else query
    .ok query

/-! ### Calendar arithmetic for the CC-NEWS listing

`datetime.date` values are proleptic-Gregorian ordinals
(`date.toordinal`, ordinal 1 = 0001-01-01); `civilFromOrdinal` is the
standard days-to-civil conversion used to render `strftime` fields. -/

/-- Ordinal → (year, month, day) in the proleptic Gregorian calendar.
Input shifted so all intermediate arithmetic stays in `Nat`
(`ord + 305` is the day count from 0000-03-01). -/
def civilFromOrdinal (ord : Nat) : Nat × Nat × Nat :=
  let z := ord + 305
  let era := z / 146097
  let doe := z % 146097
  let yoe := (doe - doe / 1460 + doe / 36524 - doe / 146096) / 365
  let y := yoe + era * 400
  let doy := doe - (365 * yoe + yoe / 4 - yoe / 100)
  let mp := (5 * doy + 2) / 153
  let d := doy - (153 * mp + 2) / 5 + 1
  let m := if mp < 10 then mp + 3 else mp - 9
  (if m ≤ 2 then y + 1 else y, m, d)

/-- (year, month, day) → ordinal (`datetime.date(y, m, d).toordinal()`),
for `y ≥ 1`, `1 ≤ m ≤ 12`, `d ≥ 1`.  Used to state concrete dates. -/
def daysFromCivil (y m d : Nat) : Nat :=
  let y' := if m ≤ 2 then y - 1 else y
  let era := y' / 400
  let yoe := y' % 400
  let mp := if m > 2 then m - 3 else m + 9
  let doy := (153 * mp + 2) / 5 + d - 1
  let doe := yoe * 365 + yoe / 4 - yoe / 100 + doy
  era * 146097 + doe - 305

/-- Zero-padded 2-digit field (`strftime` `%m` / `%d`). -/
def pad2 (n : Nat) : String :=
  if n < 10 then "0" ++ toString n else toString n

/-- 4-digit year field (`strftime` `%Y`; zero-padded — coincides with
CPython's rendering for every year of the CC-NEWS era). -/
def pad4 (n : Nat) : String :=
  if n < 10 then "000" ++ toString n
  else if n < 100 then "00" ++ toString n
  else if n < 1000 then "0" ++ toString n
  else toString n

/-- The per-day S3 listing prefix of `get_news_crawl_listing`
(utils.py lines 78-80): `day.strftime('%Y/%m/CC-NEWS-%Y%m%d')`
interpolated into `f'/crawl-data/CC-NEWS/{date_path}'`, whose leading
`/` the local `keys` helper strips before calling S3. -/
def day_prefix (ord : Nat) : String :=
  let c := civilFromOrdinal ord
  "crawl-data/CC-NEWS/" ++ pad4 c.1 ++ "/" ++ pad2 c.2.1 ++
    "/CC-NEWS-" ++ pad4 c.1 ++ pad2 c.2.1 ++ pad2 c.2.2

/-- `datetime.date.min.toordinal()`. -/
def date_min_ord : Nat := 1

/-- The day set of `get_news_crawl_listing` (utils.py lines 44-83): when
at least one bound is given, default the missing bound (`end` → today,
`start` → `date.min` — note the `elif`), then build
`start + i` for `i ∈ range(delta.days + 1 + sitemap_pad)` with
`sitemap_pad = 30`.  The both-`none` case takes the full-catalog branch,
which lists a single crawl-root prefix instead of per-day prefixes and
is modelled as `[]` here. -/
def news_listing_days (today : Nat) (start_date end_date : Option Nat) :
    List Nat :=
  match start_date, end_date with
  | none, none => []
  | s0, e0 =>
    let se : Nat × Nat :=
      match e0 with
      | none => (s0.getD 0, today)
      | some ev =>
        match s0 with
        | none => (date_min_ord, ev)
        | some sv => (sv, ev)
    let delta : Int := (se.2 : Int) - (se.1 : Int)
    (List.range (delta + 1 + 30).toNat).map (fun i => se.1 + i)

/-- The listing prefixes fetched by `get_news_crawl_listing`, one per
day of `news_listing_days`. -/
def news_listing_prefixes (today : Nat) (start_date end_date : Option Nat) :
    List String :=
  (news_listing_days today start_date end_date).map day_prefix

/-! ### `get_cc_crawls_since` (utils.py lines 97-121) -/

/-- One crawl descriptor of the `collinfo.json` catalog. -/
structure Crawl where
  id : String
  name : String
  deriving Repr, DecidableEq

/-- `re.findall(r'[0-9]{4}', s)`: left-to-right, non-overlapping
4-digit matches. -/
def find_years : List Char → List Nat
  | c1 :: c2 :: c3 :: c4 :: rest =>
    if c1.isDigit ∧ c2.isDigit ∧ c3.isDigit ∧ c4.isDigit then
      ((c1.toNat - 48) * 1000 + (c2.toNat - 48) * 100 +
        (c3.toNat - 48) * 10 + (c4.toNat - 48)) :: find_years rest
    else find_years (c2 :: c3 :: c4 :: rest)
  | _ => []

/-- The month-name alternation of `month_regex`, paired with
`datetime.datetime.strptime(name, '%B').month`. -/
def month_names : List (String × Nat) :=
  [("January", 1), ("February", 2), ("March", 3), ("April", 4),
   ("May", 5), ("June", 6), ("July", 7), ("August", 8),
   ("September", 9), ("October", 10), ("November", 11), ("December", 12)]

/-- `re.search(month_regex, s)`: the first position (scanning left to
right) where some month name starts; no two month names can match at
the same position, so the alternation order is immaterial. -/
def find_month_from : List Char → Option Nat
  | [] => none
  | l@(_ :: rest) =>
    match month_names.find? (fun p => p.1.data.isPrefixOf l) with
    | some p => some p.2
    | none => find_month_from rest

/-- A `datetime.date` as used by `get_cc_crawls_since` (only `.year` and
`.month` are read; `.day` participates in date ordering only). -/
structure PyDate where
  year : Nat
  month : Nat
  day : Nat
  deriving Repr, DecidableEq

/-- `datetime.date` ordering: lexicographic on (year, month, day). -/
def PyDate.le (a b : PyDate) : Prop :=
  a.year < b.year ∨
    (a.year = b.year ∧
      (a.month < b.month ∨ (a.month = b.month ∧ a.day ≤ b.day)))

/-- The per-crawl body of the `for crawl in crawls` loop of
`get_cc_crawls_since`: `min` over the extracted years (raising on an
empty list, modelled as `Except.error`), include if the crawl year
exceeds `date.year`, else on a tie include iff a month name is found
and exceeds `date.month` (`continue` when no month parses). -/
def crawl_since_test (date : PyDate) (name : String) : Except String Bool :=
  match (find_years name.data).min? with
  | none => .error "min() arg is an empty sequence"
  | some crawl_year =>
    if crawl_year > date.year then .ok true
    else if crawl_year = date.year then
      match find_month_from name.data with
      | none => .ok false
      | some m => .ok (decide (m > date.month))
    else .ok false

/-- `utils.get_cc_crawls_since` over an explicit catalog (the
`collinfo.json` fetch is the external catalog endpoint): filter the
catalog in order by `crawl_since_test`, propagating the first raised
exception. -/
def get_cc_crawls_since (crawls : List Crawl) (date : PyDate) :
    Except String (List String) :=
  match crawls with
  | [] => .ok []
  | c :: rest =>
    match crawl_since_test date c.name with
    | .error e => .error e
    | .ok b =>
      match get_cc_crawls_since rest date with
      | .error e => .error e
      | .ok tail => .ok (if b then c.id :: tail else tail)

/-- A `process_record` return value that is an accepted article:
`(True, {...})`. -/
def ProcResult.accepted : ProcResult → Bool
  | .pair true _ => true
  | _ => false

/-! ## Helper lemmas -/

theorem Counters.add_def (a b : Counters) : a + b = Counters.add a b := rfl

theorem Counters.zero_add_c (c : Counters) : Counters.zero + c = c := by
  cases c
  simp [Counters.add_def, Counters.add, Counters.zero]

theorem Counters.add_zero_c (c : Counters) : c + Counters.zero = c := by
  cases c
  simp [Counters.add_def, Counters.add, Counters.zero]

theorem Counters.add_assoc_c (a b c : Counters) :
    a + b + c = a + (b + c) := by
  cases a
  cases b
  cases c
  simp [Counters.add_def, Counters.add, Nat.add_assoc]

theorem Counters.add_warc_input_failed (a b : Counters) :
    (a + b).warc_input_failed = a.warc_input_failed + b.warc_input_failed :=
  rfl

/-- Once `succ` credits remain below the cap `k`, the loop yields at
most `k - succ` further objects. -/
theorem iterate_from_len_le (proc : Record → ProcResult × Counters)
    (k : Nat) :
    ∀ (records : List Record) (succ : Nat), succ < k →
      (iterate_records_from (some k) proc records succ).1.length ≤
        k - succ := by
  intro records
  induction records with
  | nil =>
    intro succ h
    simp [iterate_records_from]
  | cons r rest ih =>
    intro succ h
    simp only [iterate_records_from]
    by_cases ht : (proc r).1.truthy
    · by_cases hcap : capReached (some k) (succ + 1)
      · simp [ht, hcap]
        omega
      · have h1 : succ + 1 < k := by
          simp [capReached] at hcap
          omega
        have := ih (succ + 1) h1
        simp [ht, hcap]
        omega
    · by_cases hcap : capReached (some k) succ
      · simp [ht, hcap]
      · have := ih succ h
        simp [ht, hcap]
        omega

/-- Once the loop's yield count has reached the cap it has broken out:
appending further records changes nothing. -/
theorem iterate_from_stop (proc : Record → ProcResult × Counters)
    (k : Nat) :
    ∀ (records post : List Record) (succ : Nat), succ < k →
      (iterate_records_from (some k) proc records succ).1.length =
        k - succ →
      iterate_records_from (some k) proc (records ++ post) succ =
        iterate_records_from (some k) proc records succ := by
  intro records
  induction records with
  | nil =>
    intro post succ h hlen
    simp [iterate_records_from] at hlen
    omega
  | cons r rest ih =>
    intro post succ h hlen
    simp only [iterate_records_from] at hlen
    simp only [List.cons_append, iterate_records_from]
    by_cases ht : (proc r).1.truthy
    · by_cases hcap : capReached (some k) (succ + 1)
      · simp [ht, hcap]
      · have h1 : succ + 1 < k := by
          simp [capReached] at hcap
          omega
        have hlen' :
            (iterate_records_from (some k) proc rest (succ + 1)).1.length =
              k - (succ + 1) := by
          simp [ht, hcap] at hlen
          omega
        simp [ht, hcap, ih post (succ + 1) h1 hlen']
    · by_cases hcap : capReached (some k) succ
      · simp [ht, hcap]
      · have hlen' :
            (iterate_records_from (some k) proc rest succ).1.length =
              k - succ := by
          simpa [ht, hcap] using hlen
        simp [ht, hcap, ih post succ h hlen']

/-- Processing a concatenation of work rows concatenates the outputs
and sums the counter deltas. -/
theorem fetch_append (fetch : WorkRow → FetchOutcome)
    (proc : Record → ProcResult × Counters) (xs ys : List WorkRow) :
    fetch_process_warc_records fetch proc (xs ++ ys) =
      ((fetch_process_warc_records fetch proc xs).1 ++
        (fetch_process_warc_records fetch proc ys).1,
       (fetch_process_warc_records fetch proc xs).2 +
        (fetch_process_warc_records fetch proc ys).2) := by
  induction xs with
  | nil =>
    simp [fetch_process_warc_records, Counters.zero_add_c]
  | cons row rest ih =>
    simp only [List.cons_append, fetch_process_warc_records]
    cases hf : fetch row with
    | clientError =>
      simp [ih, Counters.add_assoc_c]
    | content recs corrupt =>
      simp [ih, Counters.add_assoc_c, List.append_assoc]

/-- The record-processing loop inside a successfully fetched stream
never touches `warc_input_failed` provided the per-record processor
does not. -/
theorem process_stream_no_failures (proc : Record → ProcResult × Counters)
    (hproc : ∀ rec, (proc rec).2.warc_input_failed = 0) :
    ∀ recs, (process_stream proc recs).2.warc_input_failed = 0 := by
  intro recs
  induction recs with
  | nil => rfl
  | cons r rs ih =>
    simp [process_stream, Counters.add_warc_input_failed, hproc, ih,
      Counters.zero]

/-- A run over rows that all fetch cleanly (no client error, no
corruption) contributes zero to `warc_input_failed`, provided the
per-record processor does not touch that counter. -/
theorem fetch_clean_no_failures (fetch : WorkRow → FetchOutcome)
    (proc : Record → ProcResult × Counters)
    (hproc : ∀ rec, (proc rec).2.warc_input_failed = 0) :
    ∀ rows : List WorkRow,
      (∀ r ∈ rows, ∃ recs, fetch r = .content recs false) →
      (fetch_process_warc_records fetch proc rows).2.warc_input_failed =
        0 := by
  intro rows
  induction rows with
  | nil =>
    intro _
    rfl
  | cons row rest ih =>
    intro h
    obtain ⟨recs, hf⟩ := h row (List.mem_cons_self row rest)
    have hrest := ih (fun r hr => h r (List.mem_cons_of_mem row hr))
    simp [fetch_process_warc_records, hf, Counters.add_warc_input_failed,
      hrest, process_stream_no_failures _ (fun rec => hproc _)]

/-- Reduction of `crawl_since_test` when the name contains a year. -/
theorem crawl_since_test_eq (d : PyDate) (name : String) (cy : Nat)
    (hmin : (find_years name.data).min? = some cy) :
    crawl_since_test d name =
      (if cy > d.year then Except.ok true
       else if cy = d.year then
         match find_month_from name.data with
         | none => Except.ok false
         | some m => Except.ok (decide (m > d.month))
       else Except.ok false) := by
  unfold crawl_since_test
  rw [hmin]

/-- Reduction of `crawl_since_test` when the name contains no year. -/
theorem crawl_since_test_err (d : PyDate) (name : String)
    (hmin : (find_years name.data).min? = none) :
    crawl_since_test d name = .error "min() arg is an empty sequence" := by
  unfold crawl_since_test
  rw [hmin]

/-- The per-crawl inclusion test is antitone in the date: whatever a
later date admits, an earlier date admits too. -/
theorem crawl_since_test_mono (d1 d2 : PyDate) (h12 : PyDate.le d1 d2)
    (name : String) (h : crawl_since_test d2 name = .ok true) :
    crawl_since_test d1 name = .ok true := by
  rcases hmin : (find_years name.data).min? with _ | cy
  · rw [crawl_since_test_err d2 name hmin] at h
    cases h
  · rw [crawl_since_test_eq d2 name cy hmin] at h
    rw [crawl_since_test_eq d1 name cy hmin]
    have hyy : d1.year ≤ d2.year := by
      rcases h12 with h' | ⟨h', _⟩ <;> omega
    by_cases hy2 : cy > d2.year
    · have hy1 : cy > d1.year := by omega
      simp [hy1]
    · rw [if_neg hy2] at h
      by_cases he2 : cy = d2.year
      · rw [if_pos he2] at h
        rcases hm : find_month_from name.data with _ | m
        · rw [hm] at h
          cases h
        · rw [hm] at h
          have hgt2 : m > d2.month := by
            by_contra hc
            simp at h
            omega
          rcases h12 with hlt | ⟨heq, hm12⟩
          · have hy1 : cy > d1.year := by omega
            simp [hy1]
          · have hy1 : ¬ cy > d1.year := by omega
            have he1 : cy = d1.year := by omega
            have hmm : d1.month ≤ d2.month := by
              rcases hm12 with h' | ⟨h', _⟩ <;> omega
            rw [if_neg hy1, if_pos he1]
            simp
            omega
      · rw [if_neg he2] at h
        cases h

/-- Whether the per-crawl test raises depends only on the crawl name
(an empty year list), never on the date: if it returns for one date it
returns for every date. -/
theorem crawl_since_test_total (d1 d2 : PyDate) (name : String) (b : Bool)
    (h : crawl_since_test d2 name = .ok b) :
    ∃ b1, crawl_since_test d1 name = .ok b1 := by
  rcases hmin : (find_years name.data).min? with _ | cy
  · rw [crawl_since_test_err d2 name hmin] at h
    cases h
  · rw [crawl_since_test_eq d1 name cy hmin]
    by_cases hy : cy > d1.year
    · exact ⟨true, by simp [hy]⟩
    · by_cases he : cy = d1.year
      · rcases hm : find_month_from name.data with _ | m
        · exact ⟨false, by simp [hy, he, hm]⟩
        · exact ⟨decide (m > d1.month), by simp [hy, he, hm]⟩
      · exact ⟨false, by simp [hy, he]⟩

/-! ## Theorems -/

/-- Claim C1: a WARC response record classified as HTML whose
payload-to-article extraction raises increments
`records_parsing_failed` exactly once (every other counter delta is
zero), never propagates the exception (the embedding returns a plain
value; the `except Exception` branch converts the raised error into the
`(False, None)` result), and produces no article (the article component
of the returned pair is `none`). -/
theorem process_record_extraction_failure (ctx : JobCtx) (url : String)
    (r : Record) (e : String)
    (hresp : r.rec_type = "response") (hhtml : is_html r = true)
    (hext : ctx.extractArt url r.payload = .error e) :
    process_record ctx url r =
      (.pair false none,
        { Counters.zero with records_parsing_failed := 1 }) := by
  simp [process_record, hresp, hhtml, hext]

/-- Concrete instance of `process_record_extraction_failure`: an HTML
response whose extraction oracle raises. -/
theorem process_record_extraction_failure_witness :
    process_record
      ⟨fun _ _ => .error "boom", fun _ => true, fun _ _ => true, [], 0, 0⟩
      "http://x.ca/a"
      ⟨"response", [("WARC-Identified-Payload-Type", "text/html")], [],
        "<html></html>"⟩ =
      (.pair false none,
        { Counters.zero with records_parsing_failed := 1 }) :=
  process_record_extraction_failure _ _ _ "boom" rfl (by decide) rfl

/-- Claim C2 (failing input): `CCIndexFetchNewsJob.process_record`
(cc_index_fetch_news.py lines 46-47) returns `None` for a response
record that is not HTML **without incrementing `records_non_html`** —
its counter delta is all-zero — contradicting the claim (and §4.5 step
2 of the spec) that the record counts toward `records_non_html`
exactly once.  The class declares, initialises and logs the
`records_non_html` accumulator yet no path of its `process_record`
increments it.  The third conjunct shows the sibling
`FetchNewsJob.process_record` (spark/fetch_news.py line 21) on the same
record does behave as the claim says: it increments `records_non_html`
exactly once, produces no article, and does not count a parse
failure. -/
theorem cc_index_non_html_uncounted :
    cc_index_process_record
      ⟨fun _ _ => .ok ⟨"t", "x", 0⟩, fun _ => true, fun _ _ => true, [], 0, 0⟩
      ⟨"response", [], [("Content-Type", "image/png")], ""⟩ =
      (.skip, Counters.zero) ∧
    (cc_index_process_record
      ⟨fun _ _ => .ok ⟨"t", "x", 0⟩, fun _ => true, fun _ _ => true, [], 0, 0⟩
      ⟨"response", [], [("Content-Type", "image/png")], ""⟩).2.records_non_html
      = 0 ∧
    process_record
      ⟨fun _ _ => .ok ⟨"t", "x", 0⟩, fun _ => true, fun _ _ => true, [], 0, 0⟩
      "u" ⟨"response", [], [("Content-Type", "image/png")], ""⟩ =
      (.skip, { Counters.zero with records_non_html := 1 }) :=
  ⟨by decide, by decide, by decide⟩

/-- Claim C5: with a date range configured (and, to isolate the date
filter, no keyword filter), a candidate article that survived
extraction and the structural heuristic is rejected iff its
`publish_date` is strictly before `start_date` or strictly after
`end_date`; it is accepted — bounds included — iff
`start_date ≤ publish_date ≤ end_date` (fetch_news.py line 36). -/
theorem date_filter_inclusive_bounds (ctx : JobCtx) (url : String)
    (r : Record) (a : Article)
    (hresp : r.rec_type = "response") (hhtml : is_html r = true)
    (hext : ctx.extractArt url r.payload = .ok a)
    (hog : ctx.og_type a = true) (hkw : ctx.keywords = []) :
    ((process_record ctx url r).1 = .pair false none ↔
      (a.publish_date < ctx.start_date ∨ a.publish_date > ctx.end_date)) ∧
    ((process_record ctx url r).1 =
        .pair true (some ⟨a.title, a.text, url, a.publish_date⟩) ↔
      (ctx.start_date ≤ a.publish_date ∧ a.publish_date ≤ ctx.end_date)) := by
  by_cases hd : a.publish_date < ctx.start_date ∨ a.publish_date > ctx.end_date
  · have h1 : process_record ctx url r = (.pair false none, Counters.zero) := by
      simp [process_record, hresp, hhtml, hext, hog, hkw, hd]
    refine ⟨by simp [h1, hd], ?_⟩
    rw [h1]
    simp only [ProcResult.pair.injEq]
    constructor
    · intro h
      exact absurd h.1 (by simp)
    · intro h
      omega
  · have h1 : process_record ctx url r =
        (.pair true (some ⟨a.title, a.text, url, a.publish_date⟩),
          Counters.zero) := by
      simp [process_record, hresp, hhtml, hext, hog, hkw, hd]
    refine ⟨?_, by simpa [h1] using by omega⟩
    rw [h1]
    simp only [ProcResult.pair.injEq]
    constructor
    · intro h
      exact absurd h.1 (by simp)
    · intro h
      exact absurd h hd

/-- Concrete instance of `date_filter_inclusive_bounds`: with range
[10, 20], an article published exactly on the start bound is
accepted. -/
theorem date_filter_inclusive_bounds_witness :
    (process_record
      ⟨fun _ _ => .ok ⟨"t", "x", 10⟩, fun _ => true, fun _ _ => true, [],
        10, 20⟩
      "u" ⟨"response", [("WARC-Identified-Payload-Type", "text/html")], [],
        "p"⟩).1 =
      .pair true (some ⟨"t", "x", "u", (10 : Int)⟩) :=
  (date_filter_inclusive_bounds
    ⟨fun _ _ => .ok ⟨"t", "x", 10⟩, fun _ => true, fun _ _ => true, [],
      10, 20⟩
    "u" ⟨"response", [("WARC-Identified-Payload-Type", "text/html")], [],
      "p"⟩
    ⟨"t", "x", 10⟩ rfl (by decide) rfl rfl rfl).2.mpr
    (by constructor <;> decide)

/-- Claim C7: `construct_query` fails with the `ValueError` whenever any
site lacks a dot, whatever the other arguments are (no query string is
ever produced for such input). -/
theorem construct_query_rejects_bad_site (sites : List String)
    (limit : Nat) (crawls : List String) (lang : String)
    (url_black_list : List String)
    (h : ∃ s ∈ sites, s.data.contains '.' = false) :
    construct_query sites limit crawls lang url_black_list =
      .error "Sites should be the full registered domain, i.e. cbc.ca instead of just cbc" := by
  obtain ⟨s, hs, hc⟩ := h
  have hall : sites.all (fun s => s.data.contains '.') = false := by
    rw [List.all_eq_false]
    exact ⟨s, hs, by simpa using hc⟩
  simp only [construct_query, hall]
  simp

/-- Claim C6: for every valid input (non-empty sites each containing a
dot, non-zero limit, no crawls, default language `eng`, no block list)
`construct_query` deterministically returns exactly the SELECT of the
five columns with the `subset = 'warc'` restriction (`select_head`),
followed by the `url_host_registered_domain IN (...)` clause listing
the sites, the default language clause, and a trailing
`LIMIT <limit>`; the five-column head is a prefix, the IN clause a
substring, and `LIMIT <limit>` a suffix of the returned string by the
shape of the right-hand side. -/
theorem construct_query_shape (sites : List String) (limit : Nat)
    (hs : sites ≠ [])
    (hdot : sites.all (fun s => s.data.contains '.') = true)
    (hl : limit ≠ 0) :
    construct_query sites limit [] "eng" [] =
      .ok (select_head ++ " AND url_host_registered_domain IN (" ++
        quoteList sites ++ ")" ++
        " AND (content_languages IS NULL OR (content_languages IS NOT NULL AND content_languages = '" ++
        "eng" ++ "'))" ++ " LIMIT " ++ toString limit) := by
  have hne : ¬ ¬ ((sites.all fun s => s.data.contains '.') = true) := by
    simpa using hdot
  simp only [construct_query]
  rw [if_neg hne]
  simp [hs, hl]

set_option maxRecDepth 40000 in
/-- Concrete instance of `construct_query_shape` at the spec fixture
`sites = ["cbc.ca"], limit = 10`, checking the literal query string,
that it contains `url_host_registered_domain IN ('cbc.ca')` as a
substring, and that it ends with `LIMIT 10`. -/
theorem construct_query_shape_witness :
    construct_query ["cbc.ca"] 10 [] "eng" [] =
      .ok (select_head ++ " AND url_host_registered_domain IN (" ++
        quoteList ["cbc.ca"] ++ ")" ++
        " AND (content_languages IS NULL OR (content_languages IS NOT NULL AND content_languages = '" ++
        "eng" ++ "'))" ++ " LIMIT " ++ toString 10) ∧
    construct_query ["cbc.ca"] 10 [] "eng" [] =
      .ok "SELECT url, warc_filename, warc_record_offset, warc_record_length, content_charset FROM ccindex WHERE subset = 'warc' AND url_host_registered_domain IN ('cbc.ca') AND (content_languages IS NULL OR (content_languages IS NOT NULL AND content_languages = 'eng')) LIMIT 10" ∧
    containsSub ("url_host_registered_domain IN ('cbc.ca')").data
      ("SELECT url, warc_filename, warc_record_offset, warc_record_length, content_charset FROM ccindex WHERE subset = 'warc' AND url_host_registered_domain IN ('cbc.ca') AND (content_languages IS NULL OR (content_languages IS NOT NULL AND content_languages = 'eng')) LIMIT 10").data
      = true ∧
    "SELECT url, warc_filename, warc_record_offset, warc_record_length, content_charset FROM ccindex WHERE subset = 'warc' AND url_host_registered_domain IN ('cbc.ca') AND (content_languages IS NULL OR (content_languages IS NOT NULL AND content_languages = 'eng')) LIMIT 10"
      = "SELECT url, warc_filename, warc_record_offset, warc_record_length, content_charset FROM ccindex WHERE subset = 'warc' AND url_host_registered_domain IN ('cbc.ca') AND (content_languages IS NULL OR (content_languages IS NOT NULL AND content_languages = 'eng'))"
        ++ " LIMIT 10" :=
  ⟨construct_query_shape ["cbc.ca"] 10 (by simp) (by decide) (by decide),
    by rfl, by decide, by rfl⟩

/-- Concrete instance of `construct_query_rejects_bad_site`:
`sites = ["cbc"]` fails. -/
theorem construct_query_rejects_bad_site_witness :
    construct_query ["cbc"] 10 [] "eng" [] =
      .error "Sites should be the full registered domain, i.e. cbc.ca instead of just cbc" :=
  construct_query_rejects_bad_site ["cbc"] 10 [] "eng" []
    ⟨"cbc", by simp, by decide⟩

/-- Claim C4: with a job-wide limit `L ≠ 0` over `N ≠ 0` input
partitions, a partition (one `iterate_records` run) accepts at most
`ceil(L / N) = (L + N - 1) / N` articles — indeed it yields at most
that many objects of any kind — and as soon as its yield count reaches
the cap it stops processing: appending further records to the
partition changes nothing. -/
theorem iterate_records_soft_cap (limit nparts : Nat)
    (proc : Record → ProcResult × Counters) (records post : List Record)
    (hl : limit ≠ 0) (hn : nparts ≠ 0) :
    ((iterate_records limit nparts proc records).1.countP
        ProcResult.accepted ≤ (limit + nparts - 1) / nparts) ∧
    ((iterate_records limit nparts proc records).1.length ≤
      (limit + nparts - 1) / nparts) ∧
    ((iterate_records limit nparts proc records).1.length =
        (limit + nparts - 1) / nparts →
      iterate_records limit nparts proc (records ++ post) =
        iterate_records limit nparts proc records) := by
  have hk : 0 < (limit + nparts - 1) / nparts :=
    Nat.div_pos (by omega) (by omega)
  have hlen := iterate_from_len_le proc ((limit + nparts - 1) / nparts)
    records 0 hk
  refine ⟨?_, ?_, ?_⟩
  · calc (iterate_records limit nparts proc records).1.countP
          ProcResult.accepted
        ≤ (iterate_records limit nparts proc records).1.length :=
          List.countP_le_length _
      _ ≤ _ := by simpa [iterate_records, hl] using hlen
  · simpa [iterate_records, hl] using hlen
  · intro hcap
    have hstop := iterate_from_stop proc ((limit + nparts - 1) / nparts)
      records post 0 hk (by simpa [iterate_records, hl] using hcap)
    simpa [iterate_records, hl] using hstop

/-- Concrete instance of `iterate_records_soft_cap`: `limit = 10` over
`N = 4` partitions caps each partition at `ceil(10/4) = 3` accepted
articles even when five acceptable records arrive. -/
theorem iterate_records_soft_cap_witness :
    ((iterate_records 10 4 (fun _ => (.pair true none, Counters.zero))
        [⟨"r", [], [], ""⟩, ⟨"r", [], [], ""⟩, ⟨"r", [], [], ""⟩,
         ⟨"r", [], [], ""⟩, ⟨"r", [], [], ""⟩]).1.countP
        ProcResult.accepted ≤ (10 + 4 - 1) / 4) ∧
    ((iterate_records 10 4 (fun _ => (.pair true none, Counters.zero))
        [⟨"r", [], [], ""⟩, ⟨"r", [], [], ""⟩, ⟨"r", [], [], ""⟩,
         ⟨"r", [], [], ""⟩, ⟨"r", [], [], ""⟩]).1.length ≤
      (10 + 4 - 1) / 4) ∧
    ((iterate_records 10 4 (fun _ => (.pair true none, Counters.zero))
        [⟨"r", [], [], ""⟩, ⟨"r", [], [], ""⟩, ⟨"r", [], [], ""⟩,
         ⟨"r", [], [], ""⟩, ⟨"r", [], [], ""⟩]).1.length =
        (10 + 4 - 1) / 4 →
      iterate_records 10 4 (fun _ => (.pair true none, Counters.zero))
        ([⟨"r", [], [], ""⟩, ⟨"r", [], [], ""⟩, ⟨"r", [], [], ""⟩,
          ⟨"r", [], [], ""⟩, ⟨"r", [], [], ""⟩] ++ [⟨"r", [], [], ""⟩]) =
        iterate_records 10 4 (fun _ => (.pair true none, Counters.zero))
          [⟨"r", [], [], ""⟩, ⟨"r", [], [], ""⟩, ⟨"r", [], [], ""⟩,
           ⟨"r", [], [], ""⟩, ⟨"r", [], [], ""⟩]) :=
  iterate_records_soft_cap 10 4 (fun _ => (.pair true none, Counters.zero))
    [⟨"r", [], [], ""⟩, ⟨"r", [], [], ""⟩, ⟨"r", [], [], ""⟩,
     ⟨"r", [], [], ""⟩, ⟨"r", [], [], ""⟩] [⟨"r", [], [], ""⟩]
    (by decide) (by decide)

/-- Claim C10: a response record rejected after HTML classification
returns the two-element pair `(False, None)` rather than `None`;
`iterate_records` tests the return with Python truthiness, a non-empty
tuple is truthy, so the rejected pair is yielded into the job output
and counted toward the per-partition acceptance cap exactly as an
accepted article would be: with a cap of `ceil(1/1) = 1` the rejected
record alone exhausts the partition's cap (the remaining records are
never processed), and with no limit configured the pair still appears
in the partition's output. -/
theorem rejected_pair_counted (ctx : JobCtx) (url : String) (r : Record)
    (rest : List Record) (δ : Counters)
    (h : process_record ctx url r = (.pair false none, δ)) :
    ProcResult.truthy (.pair false none) = true ∧
    iterate_records 1 1 (process_record ctx url) (r :: rest) =
      ([.pair false none],
        δ + { Counters.zero with records_processed := 1 }) ∧
    .pair false none ∈
      (iterate_records 0 1 (process_record ctx url) (r :: rest)).1 := by
  refine ⟨rfl, ?_, ?_⟩
  · simp [iterate_records, iterate_records_from, h, capReached,
      ProcResult.truthy]
  · simp [iterate_records, iterate_records_from, h, capReached,
      ProcResult.truthy]

/-- Concrete instance of `rejected_pair_counted`: an HTML response
whose extraction raises is rejected as `(False, None)`, yet fills the
whole acceptance cap of a `limit = 1`, single-partition job. -/
theorem rejected_pair_counted_witness :
    ProcResult.truthy (.pair false none) = true ∧
    iterate_records 1 1
      (process_record
        ⟨fun _ _ => .error "boom", fun _ => true, fun _ _ => true, [], 0, 0⟩
        "u")
      [⟨"response", [("WARC-Identified-Payload-Type", "text/html")], [],
        "<html></html>"⟩] =
      ([.pair false none],
        { Counters.zero with records_parsing_failed := 1 } +
          { Counters.zero with records_processed := 1 }) ∧
    .pair false none ∈
      (iterate_records 0 1
        (process_record
          ⟨fun _ _ => .error "boom", fun _ => true, fun _ _ => true, [], 0, 0⟩
          "u")
        [⟨"response", [("WARC-Identified-Payload-Type", "text/html")], [],
          "<html></html>"⟩]).1 :=
  rejected_pair_counted
    ⟨fun _ _ => .error "boom", fun _ => true, fun _ _ => true, [], 0, 0⟩
    "u"
    ⟨"response", [("WARC-Identified-Payload-Type", "text/html")], [],
      "<html></html>"⟩
    [] { Counters.zero with records_parsing_failed := 1 } (by decide)

/-- Claim C3: in a partition of ranged work units where one unit's
byte-range fetch fails with a client error and every other unit fetches
cleanly, the run increments `warc_input_failed` by exactly one, and
every remaining unit — before and after the failing one — is still
fetched and processed: the output is exactly the concatenation of the
outputs of the prefix and the suffix.  (`hproc` records that the
per-record processor never touches the files-failed counter, true of
every `process_record` in the repository.) -/
theorem ranged_fetch_failure_isolated (fetch : WorkRow → FetchOutcome)
    (proc : Record → ProcResult × Counters)
    (pre post : List WorkRow) (u : WorkRow)
    (hu : fetch u = .clientError)
    (hok : ∀ r ∈ pre ++ post, ∃ recs, fetch r = .content recs false)
    (hproc : ∀ rec, (proc rec).2.warc_input_failed = 0) :
    (fetch_process_warc_records fetch proc (pre ++ u :: post)).1 =
      (fetch_process_warc_records fetch proc pre).1 ++
        (fetch_process_warc_records fetch proc post).1 ∧
    (fetch_process_warc_records fetch proc
        (pre ++ u :: post)).2.warc_input_failed = 1 := by
  have hpre : ∀ r ∈ pre, ∃ recs, fetch r = .content recs false :=
    fun r hr => hok r (List.mem_append_left _ hr)
  have hpost : ∀ r ∈ post, ∃ recs, fetch r = .content recs false :=
    fun r hr => hok r (List.mem_append_right _ hr)
  have happ := fetch_append fetch proc pre (u :: post)
  have hup : fetch_process_warc_records fetch proc (u :: post) =
      ((fetch_process_warc_records fetch proc post).1,
        { Counters.zero with warc_input_failed := 1 } +
          (fetch_process_warc_records fetch proc post).2) := by
    simp [fetch_process_warc_records, hu]
  rw [hup] at happ
  constructor
  · rw [happ]
  · rw [happ]
    simp [Counters.add_warc_input_failed,
      fetch_clean_no_failures fetch proc hproc pre hpre,
      fetch_clean_no_failures fetch proc hproc post hpost, Counters.zero]

/-- Concrete instance of `ranged_fetch_failure_isolated`: the middle of
three work units fails its range fetch; `warc_input_failed` ends at one
and the outer two units are still processed. -/
theorem ranged_fetch_failure_isolated_witness :
    (fetch_process_warc_records
      (fun row => if row.warc_filename = "bad" then .clientError
        else .content [] false)
      (fun _ => (.skip, Counters.zero))
      ([⟨"u1", "f1", 0, 1, none⟩] ++ ⟨"u", "bad", 0, 1, none⟩ ::
        [⟨"u2", "f2", 0, 1, none⟩])).1 =
      (fetch_process_warc_records
        (fun row => if row.warc_filename = "bad" then .clientError
          else .content [] false)
        (fun _ => (.skip, Counters.zero)) [⟨"u1", "f1", 0, 1, none⟩]).1 ++
      (fetch_process_warc_records
        (fun row => if row.warc_filename = "bad" then .clientError
          else .content [] false)
        (fun _ => (.skip, Counters.zero)) [⟨"u2", "f2", 0, 1, none⟩]).1 ∧
    (fetch_process_warc_records
      (fun row => if row.warc_filename = "bad" then .clientError
        else .content [] false)
      (fun _ => (.skip, Counters.zero))
      ([⟨"u1", "f1", 0, 1, none⟩] ++ ⟨"u", "bad", 0, 1, none⟩ ::
        [⟨"u2", "f2", 0, 1, none⟩])).2.warc_input_failed = 1 :=
  ranged_fetch_failure_isolated
    (fun row => if row.warc_filename = "bad" then .clientError
      else .content [] false)
    (fun _ => (.skip, Counters.zero))
    [⟨"u1", "f1", 0, 1, none⟩] [⟨"u2", "f2", 0, 1, none⟩]
    ⟨"u", "bad", 0, 1, none⟩
    (by decide)
    (by
      intro r hr
      refine ⟨[], ?_⟩
      fin_cases hr <;> decide)
    (fun _ => rfl)

/-- Claim C8: whenever at least one date bound is given (the missing
end bound defaulting to today, the missing start bound to the beginning
of time), the days whose prefixes are listed are exactly the inclusive
consecutive range from the effective start date through the effective
end date plus 30 days of slack, and the prefixes listed are exactly the
`day_prefix` images (`crawl-data/CC-NEWS/YYYY/MM/CC-NEWS-YYYYMMDD`) of
those days. -/
theorem news_listing_range (today : Nat) (s0 e0 : Option Nat)
    (hsome : s0 ≠ none ∨ e0 ≠ none) :
    (∀ d : Nat, d ∈ news_listing_days today s0 e0 ↔
        (s0.getD date_min_ord ≤ d ∧ d ≤ e0.getD today + 30)) ∧
    (∀ p : String, p ∈ news_listing_prefixes today s0 e0 ↔
        ∃ d : Nat, (s0.getD date_min_ord ≤ d ∧ d ≤ e0.getD today + 30) ∧
          p = day_prefix d) := by
  have hdays : ∀ d : Nat, d ∈ news_listing_days today s0 e0 ↔
      (s0.getD date_min_ord ≤ d ∧ d ≤ e0.getD today + 30) := by
    intro d
    rcases s0 with _ | sv <;> rcases e0 with _ | ev
    · simp at hsome
    · simp only [news_listing_days, date_min_ord, Option.getD_none,
        Option.getD_some]
      simp only [List.mem_map, List.mem_range]
      constructor
      · rintro ⟨i, hi, rfl⟩
        omega
      · intro h
        exact ⟨d - 1, by omega, by omega⟩
    · simp only [news_listing_days, date_min_ord, Option.getD_none,
        Option.getD_some]
      simp only [List.mem_map, List.mem_range]
      constructor
      · rintro ⟨i, hi, rfl⟩
        omega
      · intro h
        exact ⟨d - sv, by omega, by omega⟩
    · simp only [news_listing_days, date_min_ord, Option.getD_some]
      simp only [List.mem_map, List.mem_range]
      constructor
      · rintro ⟨i, hi, rfl⟩
        omega
      · intro h
        exact ⟨d - sv, by omega, by omega⟩
  refine ⟨hdays, ?_⟩
  intro p
  simp only [news_listing_prefixes, List.mem_map]
  constructor
  · rintro ⟨d, hd, rfl⟩
    exact ⟨d, (hdays d).mp hd, rfl⟩
  · rintro ⟨d, hd, rfl⟩
    exact ⟨d, (hdays d).mpr hd, rfl⟩

/-- Concrete instance of `news_listing_range` with both bounds given
(2021-08-25 through 2021-08-26), plus the literal prefix of the start
day. -/
theorem news_listing_range_witness :
    ((∀ d : Nat,
        d ∈ news_listing_days 0 (some (daysFromCivil 2021 8 25))
          (some (daysFromCivil 2021 8 26)) ↔
        ((some (daysFromCivil 2021 8 25)).getD date_min_ord ≤ d ∧
          d ≤ (some (daysFromCivil 2021 8 26)).getD 0 + 30)) ∧
      (∀ p : String,
        p ∈ news_listing_prefixes 0 (some (daysFromCivil 2021 8 25))
          (some (daysFromCivil 2021 8 26)) ↔
        ∃ d : Nat,
          ((some (daysFromCivil 2021 8 25)).getD date_min_ord ≤ d ∧
            d ≤ (some (daysFromCivil 2021 8 26)).getD 0 + 30) ∧
          p = day_prefix d)) ∧
    day_prefix (daysFromCivil 2021 8 25) =
      "crawl-data/CC-NEWS/2021/08/CC-NEWS-20210825" :=
  ⟨news_listing_range 0 (some (daysFromCivil 2021 8 25))
      (some (daysFromCivil 2021 8 26)) (Or.inl (by simp)),
    by decide⟩

/-- Claim C9: `get_cc_crawls_since` is antitone in its date argument
over any fixed catalog: for dates `d1 ≤ d2`, every crawl identifier
returned for `d2` is also returned for `d1` (the `d2` result is a
subset, never a proper superset, of the `d1` result). -/
theorem crawls_since_monotonic (catalog : List Crawl) (d1 d2 : PyDate)
    (h12 : PyDate.le d1 d2) (l2 : List String)
    (h2 : get_cc_crawls_since catalog d2 = .ok l2) :
    ∃ l1, get_cc_crawls_since catalog d1 = .ok l1 ∧ l2 ⊆ l1 := by
  induction catalog generalizing l2 with
  | nil =>
    refine ⟨[], rfl, ?_⟩
    cases h2
    simp
  | cons c rest ih =>
    unfold get_cc_crawls_since at h2
    rcases hb2 : crawl_since_test d2 c.name with e | b2
    · rw [hb2] at h2
      cases h2
    · rw [hb2] at h2
      rcases ht2 : get_cc_crawls_since rest d2 with e | tl2
      · rw [ht2] at h2
        cases h2
      · rw [ht2] at h2
        obtain ⟨tl1, ht1, hsub⟩ := ih tl2 ht2
        obtain ⟨b1, hb1⟩ := crawl_since_test_total d1 d2 c.name b2 hb2
        refine ⟨if b1 then c.id :: tl1 else tl1, ?_, ?_⟩
        · unfold get_cc_crawls_since
          rw [hb1, ht1]
        · cases h2
          cases b2 with
          | true =>
            have hb1t := crawl_since_test_mono d1 d2 h12 c.name hb2
            have hbeq : b1 = true := by
              rw [hb1t] at hb1
              cases hb1
              rfl
            rw [hbeq]
            show c.id :: tl2 ⊆ c.id :: tl1
            exact List.cons_subset_cons c.id hsub
          | false =>
            cases b1 with
            | true =>
              show tl2 ⊆ c.id :: tl1
              exact hsub.trans (List.subset_cons_self c.id tl1)
            | false =>
              exact hsub

/-- Concrete instance of `crawls_since_monotonic`: over a two-crawl
catalog, the identifiers returned for 2018-12-01 are contained in those
returned for 2018-05-01. -/
theorem crawls_since_monotonic_witness :
    ∃ l1, get_cc_crawls_since
        [⟨"a", "CC-MAIN-2019-30"⟩, ⟨"b", "Crawl of August 2018"⟩]
        ⟨2018, 5, 1⟩ = .ok l1 ∧ ["a"] ⊆ l1 :=
  crawls_since_monotonic
    [⟨"a", "CC-MAIN-2019-30"⟩, ⟨"b", "Crawl of August 2018"⟩]
    ⟨2018, 5, 1⟩ ⟨2018, 12, 1⟩ (Or.inr ⟨rfl, Or.inl (by decide)⟩)
    ["a"] (by rfl)

end Seldonite
